import Mathlib

/-!
Verification of the Curvable AI assistant's action parser and action
executor (`src/aiService.ts`), as a shallow embedding in Lean 4.

The parser embedding follows `AIService.suggestCodeActions`: a single
forward pass over the lines of the response text, matching each line
against the marker regexes in the source's fixed priority order, with a
transient content-block buffer (`currentFilePath` / `currentContent`).

The executor embedding follows the per-operation methods
(`createFile`, `createDirectory`, `deleteFile`, `deleteDirectory`,
`moveFile`, `copyFile`, `editFile`) over an explicit filesystem state.
Paths are modelled as lists of segments; `path.join` plus Node's
normalization of `.` and `..` is `joinPath`.
-/

/-- Whitespace characters stripped by JavaScript `String.prototype.trim`
(restricted to the ASCII whitespace that can occur in our lines). -/
def isWs (c : Char) : Bool :=
  c = ' ' || c = '\t' || c = '\n' || c = '\r'

/-- JavaScript `String.prototype.trim`: strip leading and trailing
whitespace. -/
def trimChars (s : String) : String :=
  String.mk (((s.data.dropWhile isWs).reverse.dropWhile isWs).reverse)

/-- A line is blank when `line.trim()` is falsy in JavaScript, i.e. every
character is whitespace. -/
def isBlank (s : String) : Bool :=
  s.data.all isWs

/-- Worker for `splitNl`. -/
def splitNlAux : List Char → List Char → List String
  | [], acc => [String.mk acc.reverse]
  | c :: cs, acc =>
      if c = '\n' then String.mk acc.reverse :: splitNlAux cs []
      else splitNlAux cs (c :: acc)

/-- JavaScript `response.split('\n')`. -/
def splitNl (s : String) : List String :=
  splitNlAux s.data []

/-- Split a list at the first occurrence of `stop`: returns the chars
before it and the chars after it, or `none` when `stop` does not occur.
This is the deterministic behaviour of a greedy `[^stop]+` regex group
followed by the literal `stop`. -/
def takeUntil (stop : Char) : List Char → Option (List Char × List Char)
  | [] => none
  | c :: cs =>
      if c = stop then some ([], cs)
      else
        match takeUntil stop cs with
        | some (pre, rest) => some (c :: pre, rest)
        | none => none

/-- Try the two-field marker regex `\[TAG:([^:]+):([^\]]+)\]` anchored at
the start of `cs`, where `lit` is the literal `"[TAG:"`. -/
def matchAt2 (lit : List Char) (cs : List Char) : Option (String × String) :=
  if lit.isPrefixOf cs then
    match takeUntil ':' (cs.drop lit.length) with
    | some (f1, cs2) =>
        if f1 = [] then none
        else
          match takeUntil ']' cs2 with
          | some (f2, _) => if f2 = [] then none else some (String.mk f1, String.mk f2)
          | none => none
    | none => none
  else none

/-- Try the three-field marker regex `\[TAG:([^:]+):([^:]+):([^\]]+)\]`
anchored at the start of `cs`. -/
def matchAt3 (lit : List Char) (cs : List Char) : Option (String × String × String) :=
  if lit.isPrefixOf cs then
    match takeUntil ':' (cs.drop lit.length) with
    | some (f1, cs2) =>
        if f1 = [] then none
        else
          match takeUntil ':' cs2 with
          | some (f2, cs3) =>
              if f2 = [] then none
              else
                match takeUntil ']' cs3 with
                | some (f3, _) =>
                    if f3 = [] then none
                    else some (String.mk f1, String.mk f2, String.mk f3)
                | none => none
          | none => none
    | none => none
  else none

/-- Try the one-field marker regex `\[TAG:([^\]]+)\]` anchored at the
start of `cs`. -/
def matchAt1 (lit : List Char) (cs : List Char) : Option String :=
  if lit.isPrefixOf cs then
    match takeUntil ']' (cs.drop lit.length) with
    | some (f1, _) => if f1 = [] then none else some (String.mk f1)
    | none => none
  else none

/-- Leftmost match of the two-field marker regex in a line
(JavaScript `line.match(regex)` semantics: try every start position,
first success wins). -/
def findTag2 (lit : List Char) : List Char → Option (String × String)
  | [] => none
  | c :: cs =>
      match matchAt2 lit (c :: cs) with
      | some r => some r
      | none => findTag2 lit cs

/-- Leftmost match of the three-field marker regex in a line. -/
def findTag3 (lit : List Char) : List Char → Option (String × String × String)
  | [] => none
  | c :: cs =>
      match matchAt3 lit (c :: cs) with
      | some r => some r
      | none => findTag3 lit cs

/-- Leftmost match of the one-field marker regex in a line. -/
def findTag1 (lit : List Char) : List Char → Option String
  | [] => none
  | c :: cs =>
      match matchAt1 lit (c :: cs) with
      | some r => some r
      | none => findTag1 lit cs

/-- Substring test, for the close-marker regex `\[\/FILE_CONTENT\]`. -/
def containsSub (pat : List Char) : List Char → Bool
  | [] => decide (pat = [])
  | c :: cs => pat.isPrefixOf (c :: cs) || containsSub pat cs

/-- The `type` field of a `CodeAction` (the tagged-variant labels of the
TypeScript union). The parser normalizes the `CREATE_FOLDER` alias to
`CREATE_DIRECTORY`. -/
inductive ActionType where
  | CREATE_FILE
  | CREATE_DIRECTORY
  | DELETE_FILE
  | DELETE_DIRECTORY
  | MOVE_FILE
  | COPY_FILE
  | EDIT_FILE
deriving DecidableEq, Repr

/-- The `CodeAction` interface of `aiService.ts`. -/
structure CodeAction where
  type : ActionType
  path : String
  content : Option String
  description : String
  sourcePath : Option String
  destinationPath : Option String
deriving DecidableEq, Repr

/-- The mutable locals of the `suggestCodeActions` parsing loop. -/
structure ParseState where
  actions : List CodeAction
  currentFilePath : String
  currentContent : String
deriving DecidableEq, Repr

/-- Initial parser state (`actions = []`, empty buffer). -/
def initState : ParseState := ⟨[], "", ""⟩

def litCREATE_FILE : List Char := "[CREATE_FILE:".data
def litCREATE_DIRECTORY : List Char := "[CREATE_DIRECTORY:".data
def litCREATE_FOLDER : List Char := "[CREATE_FOLDER:".data
def litDELETE_FILE : List Char := "[DELETE_FILE:".data
def litDELETE_DIRECTORY : List Char := "[DELETE_DIRECTORY:".data
def litMOVE_FILE : List Char := "[MOVE_FILE:".data
def litCOPY_FILE : List Char := "[COPY_FILE:".data
def litEDIT_FILE : List Char := "[EDIT_FILE:".data
def litFILE_CONTENT : List Char := "[FILE_CONTENT:".data
def litEND_CONTENT : List Char := "[/FILE_CONTENT]".data

/-- Worker for `bindContent`, operating on the reversed action list: the
source's `actions.filter(a => a.type === 'CREATE_FILE').reverse().find(a =>
a.path === p)` finds the last emitted `CREATE_FILE` action with path `p`,
and mutates that action's `content` in place. -/
def bindRev (p c : String) : List CodeAction → List CodeAction
  | [] => []
  | a :: rest =>
      if a.type = ActionType.CREATE_FILE ∧ a.path = p then
        { a with content := some c } :: rest
      else
        a :: bindRev p c rest

/-- Assign content `c` to the most recently emitted `CREATE_FILE` action
whose path is `p`; when no such action exists the list is unchanged. -/
def bindContent (acts : List CodeAction) (p c : String) : List CodeAction :=
  (bindRev p c acts.reverse).reverse

/-- One iteration of the `for (const line of lines)` loop of
`suggestCodeActions`: all marker regexes are evaluated on the line, then
the source's if/else-if chain picks the first match, in order:
CREATE_FILE, CREATE_DIRECTORY, CREATE_FOLDER, DELETE_FILE,
DELETE_DIRECTORY, MOVE_FILE, COPY_FILE, EDIT_FILE, FILE_CONTENT open,
FILE_CONTENT close, then the buffering append guarded by
`currentFilePath && line.trim()`. -/
def processLine (st : ParseState) (line : String) : ParseState :=
  match findTag2 litCREATE_FILE line.data with
  | some (p, d) =>
      { st with actions := st.actions ++ [⟨.CREATE_FILE, p, none, d, none, none⟩] }
  | none =>
  match findTag2 litCREATE_DIRECTORY line.data with
  | some (p, d) =>
      { st with actions := st.actions ++ [⟨.CREATE_DIRECTORY, p, none, d, none, none⟩] }
  | none =>
  match findTag2 litCREATE_FOLDER line.data with
  | some (p, d) =>
      { st with actions := st.actions ++ [⟨.CREATE_DIRECTORY, p, none, d, none, none⟩] }
  | none =>
  match findTag2 litDELETE_FILE line.data with
  | some (p, d) =>
      { st with actions := st.actions ++ [⟨.DELETE_FILE, p, none, d, none, none⟩] }
  | none =>
  match findTag2 litDELETE_DIRECTORY line.data with
  | some (p, d) =>
      { st with actions := st.actions ++ [⟨.DELETE_DIRECTORY, p, none, d, none, none⟩] }
  | none =>
  match findTag3 litMOVE_FILE line.data with
  | some (s, dst, d) =>
      { st with actions := st.actions ++ [⟨.MOVE_FILE, s, none, d, some s, some dst⟩] }
  | none =>
  match findTag3 litCOPY_FILE line.data with
  | some (s, dst, d) =>
      { st with actions := st.actions ++ [⟨.COPY_FILE, s, none, d, some s, some dst⟩] }
  | none =>
  match findTag2 litEDIT_FILE line.data with
  | some (p, d) =>
      { st with actions := st.actions ++ [⟨.EDIT_FILE, p, none, d, none, none⟩] }
  | none =>
  match findTag1 litFILE_CONTENT line.data with
  | some p => { st with currentFilePath := p, currentContent := "" }
  | none =>
  if containsSub litEND_CONTENT line.data then
    { actions := bindContent st.actions st.currentFilePath (trimChars st.currentContent),
      currentFilePath := "", currentContent := "" }
  else if !st.currentFilePath.data.isEmpty && !isBlank line then
    { st with currentContent := st.currentContent ++ line ++ "\n" }
  else
    st

/-- The marker parser of `AIService.suggestCodeActions`: split the
response on newlines and run the line loop; the parsed actions are
returned in emission order. -/
def suggestCodeActions (response : String) : List CodeAction :=
  ((splitNl response).foldl processLine initState).actions

/-- A line is header-free when none of the eight header-marker regexes of
`suggestCodeActions` matches it. -/
def headerFree (line : String) : Bool :=
  (findTag2 litCREATE_FILE line.data).isNone &&
  (findTag2 litCREATE_DIRECTORY line.data).isNone &&
  (findTag2 litCREATE_FOLDER line.data).isNone &&
  (findTag2 litDELETE_FILE line.data).isNone &&
  (findTag2 litDELETE_DIRECTORY line.data).isNone &&
  (findTag3 litMOVE_FILE line.data).isNone &&
  (findTag3 litCOPY_FILE line.data).isNone &&
  (findTag2 litEDIT_FILE line.data).isNone

/-- The identity of an action apart from its mutable `content` field. -/
def actId (a : CodeAction) : ActionType × String × String × Option String × Option String :=
  (a.type, a.path, a.description, a.sourcePath, a.destinationPath)

/-! ## Filesystem model and the executor methods -/

/-- An absolute path as its list of segments below the filesystem root. -/
abbrev FPath := List String

/-- Filesystem state: an association list of file paths to contents
(newer entries shadow older ones) plus the list of existing directories.
The filesystem root `[]` always exists as a directory. -/
structure FSState where
  files : List (FPath × String)
  dirs : List FPath
deriving DecidableEq, Repr

/-- `fs.readFileSync` on a file path: the content of the first (most
recent) entry for the path, or `none` when no file is at the path. -/
def readFileF (fs : FSState) (p : FPath) : Option String :=
  (fs.files.find? (fun e => decide (e.1 = p))).map (·.2)

/-- Directory existence; the filesystem root `[]` always exists. -/
def isDirF (fs : FSState) (p : FPath) : Bool :=
  decide (p = [] ∨ p ∈ fs.dirs)

/-- `fs.existsSync`: a file or a directory is at the path. -/
def existsF (fs : FSState) (p : FPath) : Bool :=
  (readFileF fs p).isSome || isDirF fs p

/-- `fs.writeFileSync`: create or overwrite the file at `p`. -/
def writeFileF (fs : FSState) (p : FPath) (c : String) : FSState :=
  { fs with files := (p, c) :: fs.files }

/-- `fs.unlinkSync`: remove the file at `p`. -/
def unlinkF (fs : FSState) (p : FPath) : FSState :=
  { fs with files := fs.files.filter (fun e => !decide (e.1 = p)) }

/-- `fs.rmSync(p, { recursive: true, force: true })`: remove the
directory and everything under it. -/
def rmRecF (fs : FSState) (p : FPath) : FSState :=
  { files := fs.files.filter (fun e => !p.isPrefixOf e.1),
    dirs := fs.dirs.filter (fun q => !p.isPrefixOf q) }

/-- The nonempty prefixes of a path, shortest first: the chain of
ancestors ending at the path itself. -/
def prefList (p : FPath) : List FPath :=
  (List.range p.length).map (fun i => p.take (i + 1))

/-- `fs.mkdirSync(p, { recursive: true })`: create the directory and all
of its missing ancestors (re-adding an existing ancestor is harmless in
this membership-based representation). -/
def mkdirRecF (fs : FSState) (p : FPath) : FSState :=
  { fs with dirs := prefList p ++ fs.dirs }

/-- Rebase a path under `s` onto `d` (used by rename). -/
def rebase (s d p : FPath) : FPath :=
  if s.isPrefixOf p then d ++ p.drop s.length else p

/-- `fs.renameSync`: move the entry at `s` (file, or directory with its
contents) to `d`, overwriting any existing file at `d`. -/
def renameFS (fs : FSState) (s d : FPath) : FSState :=
  { files := (fs.files.filter (fun e => !decide (e.1 = d))).map (fun e => (rebase s d e.1, e.2)),
    dirs := fs.dirs.map (rebase s d) }

/-- One `..`-resolving fold step of Node path normalization. -/
def normStep (acc : FPath) (seg : String) : FPath :=
  if seg = "" ∨ seg = "." then acc
  else if seg = ".." then acc.dropLast
  else acc ++ [seg]

/-- Normalize a segment list the way Node `path.normalize` treats an
absolute path: drop empty and `.` segments, resolve `..` against the
accumulated prefix (and drop it at the root). -/
def normSegs (segs : List String) : FPath :=
  segs.foldl normStep []

/-- Split a workspace-relative path string on `/`. -/
def splitSlash (p : String) : List String :=
  (splitNlAux (p.data.map (fun c => if c = '/' then '\n' else c)) [])

/-- Node `path.join(root, p)` for an absolute `root` given as segments:
concatenate and normalize, resolving any `..` in `p` against `root`. -/
def joinPath (root : FPath) (p : String) : FPath :=
  normSegs (root ++ splitSlash p)

/-- The value delivered by a resolved executor promise: every method of
`aiService.ts` resolves with a message string, except `editFile`, which
resolves with a boolean. -/
inductive ExecResult where
  | msg (s : String)
  | flag (b : Bool)
deriving DecidableEq, Repr

/-- Outcome of one executor method: the resolved value or the thrown
error message, paired with the filesystem state when the method
returned or threw. -/
abbrev ExecOut := Except String ExecResult × FSState

/-- `AIService.createFile`: join against the workspace root, create the
parent directory when missing (`path.dirname` is `dropLast`), then write
the content. Editor-opening side effects are outside the model. -/
def createFile (root : FPath) (filePath content : String) (fs : FSState) : ExecOut :=
  let fullPath := joinPath root filePath
  let dirPath := fullPath.dropLast
  let fs1 := if existsF fs dirPath then fs else mkdirRecF fs dirPath
  (.ok (.msg ("File " ++ filePath ++ " created successfully")), writeFileF fs1 fullPath content)

/-- `AIService.createDirectory`: a no-op success when the directory (or
anything) already exists at the path, else recursive creation. -/
def createDirectory (root : FPath) (dirPath : String) (fs : FSState) : ExecOut :=
  let fullPath := joinPath root dirPath
  if existsF fs fullPath then
    (.ok (.msg ("Directory " ++ dirPath ++ " already exists")), fs)
  else
    (.ok (.msg ("Directory " ++ dirPath ++ " created successfully")), mkdirRecF fs fullPath)

/-- `AIService.deleteFile`: existence check, then unlink. -/
def deleteFile (root : FPath) (filePath : String) (fs : FSState) : ExecOut :=
  let fullPath := joinPath root filePath
  if existsF fs fullPath then
    (.ok (.msg ("File " ++ filePath ++ " deleted successfully")), unlinkF fs fullPath)
  else
    (.error ("File " ++ filePath ++ " does not exist"), fs)

/-- `AIService.deleteDirectory`: existence check, then recursive removal. -/
def deleteDirectory (root : FPath) (dirPath : String) (fs : FSState) : ExecOut :=
  let fullPath := joinPath root dirPath
  if existsF fs fullPath then
    (.ok (.msg ("Directory " ++ dirPath ++ " deleted successfully")), rmRecF fs fullPath)
  else
    (.error ("Directory " ++ dirPath ++ " does not exist"), fs)

/-- `AIService.moveFile`: source existence check, then creation of the
destination's parent directory when missing, then rename. -/
def moveFile (root : FPath) (sourcePath destinationPath : String) (fs : FSState) : ExecOut :=
  let fullSourcePath := joinPath root sourcePath
  let fullDestPath := joinPath root destinationPath
  if !existsF fs fullSourcePath then
    (.error ("Source file " ++ sourcePath ++ " does not exist"), fs)
  else
    let destDir := fullDestPath.dropLast
    let fs1 := if existsF fs destDir then fs else mkdirRecF fs destDir
    (.ok (.msg ("File moved from " ++ sourcePath ++ " to " ++ destinationPath)),
     renameFS fs1 fullSourcePath fullDestPath)

/-- `AIService.copyFile`: source existence check, then creation of the
destination's parent directory when missing, then `fs.copyFileSync`
(which throws `EISDIR` when the source is a directory, after the parent
directory was already created). -/
def copyFile (root : FPath) (sourcePath destinationPath : String) (fs : FSState) : ExecOut :=
  let fullSourcePath := joinPath root sourcePath
  let fullDestPath := joinPath root destinationPath
  if !existsF fs fullSourcePath then
    (.error ("Source file " ++ sourcePath ++ " does not exist"), fs)
  else
    let destDir := fullDestPath.dropLast
    let fs1 := if existsF fs destDir then fs else mkdirRecF fs destDir
    match readFileF fs1 fullSourcePath with
    | some c =>
        (.ok (.msg ("File copied from " ++ sourcePath ++ " to " ++ destinationPath)),
         writeFileF fs1 fullDestPath c)
    | none => (.error "EISDIR: illegal operation on a directory, copyfile", fs1)

/-- `AIService.editFile`: existence check, a read of the current content
(which throws `EISDIR` on a directory), then overwrite; resolves with
the boolean `true`, not a message string. -/
def editFile (root : FPath) (filePath content : String) (fs : FSState) : ExecOut :=
  let fullPath := joinPath root filePath
  if existsF fs fullPath then
    match readFileF fs fullPath with
    | some _ => (.ok (.flag true), writeFileF fs fullPath content)
    | none => (.error "EISDIR: illegal operation on a directory, read", fs)
  else
    (.error ("File " ++ filePath ++ " does not exist"), fs)

/-- The single UI message shown by one `executeCodeAction` call:
`vscode.window.showInformationMessage` or `showErrorMessage`. -/
inductive UIMessage where
  | info (s : String)
  | error (s : String)
deriving DecidableEq, Repr

/-- JavaScript truthiness of a possibly-undefined string field:
`undefined` and the empty string are falsy. -/
def jsTruthy : Option String → Bool
  | some s => !s.data.isEmpty
  | none => false

/-- The string shown for a resolved method value. The six methods typed
`Promise<string>` only ever resolve `.msg`; the `.flag` case mirrors
JavaScript string coercion of a boolean and is unreachable through
`executeCodeAction` (the `EDIT_FILE` branch discards its result). -/
def showText : ExecResult → String
  | .msg s => s
  | .flag b => cond b "true" "false"

/-- The action router `executeCodeAction(action, aiService)` of
`src/index.js`: it switches on the action type, awaits the matching
`AIService` method, and surfaces the outcome only through the UI —
`showInformationMessage` with the method's resolved string (except for
`EDIT_FILE`, whose boolean result is discarded in favour of the router's
own `File ... updated successfully` message), `showErrorMessage` when a
`MOVE_FILE`/`COPY_FILE` action lacks a truthy source or destination
path, and `showErrorMessage("Failed to execute action: " + error)` for
every caught error, so the `Promise<void>` never rejects. The embedding
returns the one UI message shown and the final filesystem state — the
call's only observable outcomes. The methods' ambient workspace-root
lookup is the explicit `root` parameter, and the source's `default`
branch is unreachable for the typed variants. -/
def executeCodeAction (action : CodeAction) (root : FPath) (fs : FSState) :
    UIMessage × FSState :=
  match action.type with
  | .CREATE_FILE =>
      match createFile root action.path (action.content.getD "") fs with
      | (Except.ok r, fs') => (.info (showText r), fs')
      | (Except.error e, fs') => (.error ("Failed to execute action: Error: " ++ e), fs')
  | .CREATE_DIRECTORY =>
      match createDirectory root action.path fs with
      | (Except.ok r, fs') => (.info (showText r), fs')
      | (Except.error e, fs') => (.error ("Failed to execute action: Error: " ++ e), fs')
  | .DELETE_FILE =>
      match deleteFile root action.path fs with
      | (Except.ok r, fs') => (.info (showText r), fs')
      | (Except.error e, fs') => (.error ("Failed to execute action: Error: " ++ e), fs')
  | .DELETE_DIRECTORY =>
      match deleteDirectory root action.path fs with
      | (Except.ok r, fs') => (.info (showText r), fs')
      | (Except.error e, fs') => (.error ("Failed to execute action: Error: " ++ e), fs')
  | .MOVE_FILE =>
      if jsTruthy action.sourcePath && jsTruthy action.destinationPath then
        match moveFile root (action.sourcePath.getD "") (action.destinationPath.getD "") fs with
        | (Except.ok r, fs') => (.info (showText r), fs')
        | (Except.error e, fs') => (.error ("Failed to execute action: Error: " ++ e), fs')
      else
        (.error "Source and destination paths are required for move operation", fs)
  | .COPY_FILE =>
      if jsTruthy action.sourcePath && jsTruthy action.destinationPath then
        match copyFile root (action.sourcePath.getD "") (action.destinationPath.getD "") fs with
        | (Except.ok r, fs') => (.info (showText r), fs')
        | (Except.error e, fs') => (.error ("Failed to execute action: Error: " ++ e), fs')
      else
        (.error "Source and destination paths are required for copy operation", fs)
  | .EDIT_FILE =>
      match editFile root action.path (action.content.getD "") fs with
      | (Except.ok _, fs') =>
          (.info ("File " ++ action.path ++ " updated successfully"), fs')
      | (Except.error e, fs') => (.error ("Failed to execute action: Error: " ++ e), fs')

/-! ## Helper lemmas -/

/-- Unfold `headerFree` into the eight matcher equations. -/
lemma headerFree_spec (line : String) (h : headerFree line = true) :
    findTag2 litCREATE_FILE line.data = none ∧
    findTag2 litCREATE_DIRECTORY line.data = none ∧
    findTag2 litCREATE_FOLDER line.data = none ∧
    findTag2 litDELETE_FILE line.data = none ∧
    findTag2 litDELETE_DIRECTORY line.data = none ∧
    findTag3 litMOVE_FILE line.data = none ∧
    findTag3 litCOPY_FILE line.data = none ∧
    findTag2 litEDIT_FILE line.data = none := by
  simpa [headerFree, Bool.and_eq_true, Option.isNone_iff_eq_none, and_assoc] using h

/-- When no action in the list is a `CREATE_FILE` with path `p`, the
binding scan leaves the list unchanged. -/
lemma bindRev_no_match (p c : String) :
    ∀ l : List CodeAction, (∀ a ∈ l, ¬(a.type = ActionType.CREATE_FILE ∧ a.path = p)) →
      bindRev p c l = l := by
  intro l
  induction l with
  | nil => intro _; rfl
  | cons a rest ih =>
      intro h
      have ha := h a (List.mem_cons_self a rest)
      simp only [bindRev, if_neg ha]
      rw [ih (fun b hb => h b (List.mem_cons_of_mem a hb))]

/-- The binding scan replaces the first matching action of the list and
keeps everything else. -/
lemma bindRev_found (p c : String) :
    ∀ (front : List CodeAction) (a : CodeAction) (back : List CodeAction),
      (∀ b ∈ front, ¬(b.type = ActionType.CREATE_FILE ∧ b.path = p)) →
      a.type = ActionType.CREATE_FILE → a.path = p →
      bindRev p c (front ++ a :: back) = front ++ { a with content := some c } :: back := by
  intro front
  induction front with
  | nil =>
      intro a back _ hty hp
      simp only [List.nil_append, bindRev]
      rw [if_pos (And.intro hty hp)]
  | cons b rest ih =>
      intro a back h hty hp
      have hb := h b (List.mem_cons_self b rest)
      simp only [List.cons_append, bindRev, if_neg hb, List.append_eq]
      rw [ih a back (fun x hx => h x (List.mem_cons_of_mem b hx)) hty hp]

/-- `bindContent` with no matching `CREATE_FILE` action is the identity. -/
lemma bindContent_no_match (acts : List CodeAction) (p c : String)
    (h : ∀ a ∈ acts, ¬(a.type = ActionType.CREATE_FILE ∧ a.path = p)) :
    bindContent acts p c = acts := by
  unfold bindContent
  rw [bindRev_no_match p c acts.reverse (fun a ha => h a (List.mem_reverse.mp ha))]
  exact List.reverse_reverse acts

/-- `bindContent` updates exactly the last emitted matching `CREATE_FILE`
action: writing `acts = l ++ a :: r` where `a` matches and nothing in the
later suffix `r` matches, only `a`'s content is assigned. -/
lemma bindContent_found (l : List CodeAction) (a : CodeAction) (r : List CodeAction)
    (p c : String) (hty : a.type = ActionType.CREATE_FILE) (hp : a.path = p)
    (hr : ∀ b ∈ r, ¬(b.type = ActionType.CREATE_FILE ∧ b.path = p)) :
    bindContent (l ++ a :: r) p c = l ++ { a with content := some c } :: r := by
  unfold bindContent
  have hrev : (l ++ a :: r).reverse = r.reverse ++ a :: l.reverse := by
    simp [List.reverse_append]
  rw [hrev, bindRev_found p c r.reverse a l.reverse
        (fun b hb => hr b (List.mem_reverse.mp hb)) hty hp]
  simp [List.reverse_append]

/-- The binding scan never changes an action's identity (type, paths,
description): only the `content` field. -/
lemma bindRev_map_actId (p c : String) :
    ∀ l : List CodeAction, (bindRev p c l).map actId = l.map actId := by
  intro l
  induction l with
  | nil => rfl
  | cons a rest ih =>
      by_cases h : a.type = ActionType.CREATE_FILE ∧ a.path = p
      · simp only [bindRev, if_pos h, List.map_cons]
        rfl
      · simp only [bindRev, if_neg h, List.map_cons, ih]

/-- `bindContent` preserves every action's identity. -/
lemma bindContent_map_actId (acts : List CodeAction) (p c : String) :
    (bindContent acts p c).map actId = acts.map actId := by
  unfold bindContent
  rw [List.map_reverse, bindRev_map_actId, ← List.map_reverse, List.reverse_reverse]

/-- Reduction of `processLine` on a line whose only recognized marker is
the content-block close marker: the buffer is bound and the buffering
state is reset. -/
lemma processLine_close (st : ParseState) (line : String)
    (hhf : headerFree line = true)
    (hstart : findTag1 litFILE_CONTENT line.data = none)
    (hend : containsSub litEND_CONTENT line.data = true) :
    processLine st line =
      ⟨bindContent st.actions st.currentFilePath (trimChars st.currentContent), "", ""⟩ := by
  obtain ⟨h1, h2, h3, h4, h5, h6, h7, h8⟩ := headerFree_spec line hhf
  simp only [processLine, h1, h2, h3, h4, h5, h6, h7, h8, hstart, hend, if_true]

/-- Reduction of `processLine` on a marker-free, non-close line while
buffering: a non-blank line is appended verbatim with a trailing newline
and a blank line is dropped. -/
lemma processLine_buffering (st : ParseState) (line : String)
    (hhf : headerFree line = true)
    (hstart : findTag1 litFILE_CONTENT line.data = none)
    (hend : containsSub litEND_CONTENT line.data = false)
    (hbuf : st.currentFilePath ≠ "") :
    processLine st line =
      if isBlank line then st
      else { st with currentContent := st.currentContent ++ line ++ "\n" } := by
  obtain ⟨h1, h2, h3, h4, h5, h6, h7, h8⟩ := headerFree_spec line hhf
  have hne : st.currentFilePath.data.isEmpty = false := by
    cases hfp : st.currentFilePath with
    | mk d =>
        cases d with
        | nil => exact absurd (hfp.trans rfl) hbuf
        | cons c cs => rfl
  simp only [processLine, h1, h2, h3, h4, h5, h6, h7, h8, hstart, hend, hne,
    Bool.false_eq_true, if_false, Bool.not_false, Bool.true_and]
  cases hb : isBlank line with
  | false => simp
  | true => simp

/-- Reading back a file just written returns the written content. -/
lemma readFileF_writeFileF_self (fs : FSState) (p : FPath) (c : String) :
    readFileF (writeFileF fs p c) p = some c := by
  simp [readFileF, writeFileF, List.find?]

/-- Writing one file leaves every other path's content unchanged. -/
lemma readFileF_writeFileF_ne (fs : FSState) (p : FPath) (c : String) (q : FPath)
    (h : p ≠ q) : readFileF (writeFileF fs p c) q = readFileF fs q := by
  simp [readFileF, writeFileF, List.find?, h]

/-- Writing a file does not change the directories. -/
lemma isDirF_writeFileF (fs : FSState) (p : FPath) (c : String) (q : FPath) :
    isDirF (writeFileF fs p c) q = isDirF fs q := rfl

/-- A nonempty path is among its own prefixes. -/
lemma mem_prefList_self (p : FPath) (h : p ≠ []) : p ∈ prefList p := by
  have hlen : 0 < p.length := List.length_pos.mpr h
  have : p.length - 1 ∈ List.range p.length := by
    exact List.mem_range.mpr (Nat.sub_lt hlen Nat.one_pos)
  refine List.mem_map.mpr ⟨p.length - 1, this, ?_⟩
  rw [Nat.sub_add_cancel hlen, List.take_length]

/-- After a recursive directory creation the directory exists. -/
lemma isDirF_mkdirRecF_self (fs : FSState) (p : FPath) :
    isDirF (mkdirRecF fs p) p = true := by
  by_cases hp : p = []
  · simp [isDirF, hp]
  · simp only [isDirF, mkdirRecF, decide_eq_true_eq]
    exact Or.inr (List.mem_append.mpr (Or.inl (mem_prefList_self p hp)))

/-- Recursive directory creation does not change the files. -/
lemma readFileF_mkdirRecF (fs : FSState) (p q : FPath) :
    readFileF (mkdirRecF fs p) q = readFileF fs q := rfl

/-- After a recursive directory creation the directory is seen by
`existsSync`. -/
lemma existsF_mkdirRecF_self (fs : FSState) (p : FPath) :
    existsF (mkdirRecF fs p) p = true := by
  simp [existsF, isDirF_mkdirRecF_self fs p]

/-! ## Claim theorems -/

/-- C1: when the parser sees a content-block close marker while buffering
(on a line carrying no header marker and no open marker), it resets the
buffering state, binds the trimmed buffer to the most recently emitted
`CREATE_FILE` action whose path equals the block's path, and when no such
action exists the buffered content is discarded silently with the action
list unchanged — no additional action is produced in either case. -/
theorem c1_close_binds_most_recent_create_file (st : ParseState) (line : String)
    (hhf : headerFree line = true)
    (hstart : findTag1 litFILE_CONTENT line.data = none)
    (hend : containsSub litEND_CONTENT line.data = true)
    (_hbuf : st.currentFilePath ≠ "") :
    ((processLine st line).currentFilePath = "" ∧
     (processLine st line).currentContent = "") ∧
    ((∀ a ∈ st.actions, ¬(a.type = ActionType.CREATE_FILE ∧ a.path = st.currentFilePath)) →
      (processLine st line).actions = st.actions) ∧
    (∀ (l : List CodeAction) (a : CodeAction) (r : List CodeAction),
      st.actions = l ++ a :: r →
      a.type = ActionType.CREATE_FILE → a.path = st.currentFilePath →
      (∀ b ∈ r, ¬(b.type = ActionType.CREATE_FILE ∧ b.path = st.currentFilePath)) →
      (processLine st line).actions =
        l ++ { a with content := some (trimChars st.currentContent) } :: r) := by
  rw [processLine_close st line hhf hstart hend]
  refine ⟨⟨rfl, rfl⟩, ?_, ?_⟩
  · intro h
    exact bindContent_no_match st.actions st.currentFilePath (trimChars st.currentContent) h
  · intro l a r hsplit hty hp hr
    rw [hsplit]
    exact bindContent_found l a r st.currentFilePath (trimChars st.currentContent) hty hp hr

/-- Witness for C1 at a concrete state: one buffered block binds to the
matching `CREATE_FILE` action. -/
theorem c1_witness :
    (processLine ⟨[⟨ActionType.CREATE_FILE, "a.txt", none, "d", none, none⟩], "a.txt", "x\n"⟩
        "[/FILE_CONTENT]").actions =
      [⟨ActionType.CREATE_FILE, "a.txt", some "x", "d", none, none⟩] :=
  (c1_close_binds_most_recent_create_file
      ⟨[⟨ActionType.CREATE_FILE, "a.txt", none, "d", none, none⟩], "a.txt", "x\n"⟩
      "[/FILE_CONTENT]" (by decide) (by decide) (by decide) (by decide)).2.2
    [] ⟨ActionType.CREATE_FILE, "a.txt", none, "d", none, none⟩ [] rfl rfl rfl
    (by intro b hb; cases hb)

/-- C2: the parser is a total function by construction (`processLine` and
`suggestCodeActions` are plain Lean functions, so every input yields an
ordered action list and nothing is thrown), and a line on which no
header-marker regex matches — in particular any malformed marker line —
emits no action and leaves the identity of every already-emitted action
unchanged. -/
theorem c2_parser_total_malformed_no_action (st : ParseState) (line : String)
    (h : headerFree line = true) :
    ((processLine st line).actions).map actId = (st.actions).map actId := by
  obtain ⟨h1, h2, h3, h4, h5, h6, h7, h8⟩ := headerFree_spec line h
  simp only [processLine, h1, h2, h3, h4, h5, h6, h7, h8]
  cases hfs : findTag1 litFILE_CONTENT line.data with
  | some p => simp
  | none =>
      cases hce : containsSub litEND_CONTENT line.data with
      | true => simp [bindContent_map_actId]
      | false =>
          cases hap : !st.currentFilePath.data.isEmpty && !isBlank line with
          | true => simp [hap]
          | false => simp [hap]

/-- Witness for C2: a `CREATE_FILE` marker missing its description field
(and an unbalanced-bracket marker) is malformed, and parsing it emits no
action. -/
theorem c2_witness :
    ((processLine initState "[CREATE_FILE:missingdesc]").actions).map actId = [] :=
  c2_parser_total_malformed_no_action initState "[CREATE_FILE:missingdesc]" (by decide)

/-- C9: the `CREATE_FOLDER` alias is normalized by the parser to the
`CREATE_DIRECTORY` variant, with the parsed path and description. -/
theorem c9_create_folder_alias :
    suggestCodeActions "[CREATE_FOLDER:x:y]" =
      [⟨ActionType.CREATE_DIRECTORY, "x", none, "y", none, none⟩] ∧
    suggestCodeActions "[CREATE_FOLDER:src/app:make dir]" =
      [⟨ActionType.CREATE_DIRECTORY, "src/app", none, "make dir", none, none⟩] := by
  exact ⟨by decide, by decide⟩

/-- C7 counterexample: for the block

`[CREATE_FILE:a.txt:d]` / `[FILE_CONTENT:a.txt]` / `x` / (blank) / `y` /
`[/FILE_CONTENT]`

the claim predicts content `"x\n\ny"` (interior lines verbatim, each with
a trailing newline, leading/trailing blank lines stripped, interior blank
lines included), but the parser drops the interior blank line and binds
`"x\ny"`. -/
theorem c7_counterexample :
    suggestCodeActions "[CREATE_FILE:a.txt:d]\n[FILE_CONTENT:a.txt]\nx\n\ny\n[/FILE_CONTENT]" =
      [⟨ActionType.CREATE_FILE, "a.txt", some "x\ny", "d", none, none⟩] ∧
    ("x\ny" : String) ≠ "x\n\ny" := by
  exact ⟨by decide, by decide⟩

/-- C7 amended: while buffering, each non-blank interior line is appended
verbatim with a trailing newline, and each blank (whitespace-only)
interior line is dropped; the buffer is whitespace-trimmed when it is
bound (see the close-marker theorem). -/
theorem c7_amended_buffering_drops_blank_lines (st : ParseState) (line : String)
    (hhf : headerFree line = true)
    (hstart : findTag1 litFILE_CONTENT line.data = none)
    (hend : containsSub litEND_CONTENT line.data = false)
    (hbuf : st.currentFilePath ≠ "") :
    (processLine st line).actions = st.actions ∧
    (processLine st line).currentContent =
      (if isBlank line then st.currentContent
       else st.currentContent ++ line ++ "\n") := by
  rw [processLine_buffering st line hhf hstart hend hbuf]
  cases hb : isBlank line with
  | true => simp
  | false => simp

/-- Witness for C7's amended statement: a non-blank line is buffered with
its newline; a blank line leaves the buffer unchanged. -/
theorem c7_amended_witness :
    (processLine ⟨[], "a.txt", "x\n"⟩ "y").currentContent = "x\ny\n" :=
  ((c7_amended_buffering_drops_blank_lines ⟨[], "a.txt", "x\n"⟩ "y"
      (by decide) (by decide) (by decide) (by decide)).2).trans (by decide)

/-- C3 counterexample: `createFile` with the relative path
`"../../evil.txt"` against workspace root `home/user/ws` is not rejected:
it succeeds and writes the file at `home/evil.txt`, a resolved path that
is outside the workspace root. -/
theorem c3_counterexample :
    (createFile ["home", "user", "ws"] "../../evil.txt" "pwned" ⟨[], []⟩).1 =
      Except.ok (ExecResult.msg "File ../../evil.txt created successfully") ∧
    readFileF (createFile ["home", "user", "ws"] "../../evil.txt" "pwned" ⟨[], []⟩).2
      ["home", "evil.txt"] = some "pwned" ∧
    List.isPrefixOf ["home", "user", "ws"] ["home", "evil.txt"] = false ∧
    (createFile ["home", "user", "ws"] "../../evil.txt" "pwned" ⟨[], []⟩).2 ≠ ⟨[], []⟩ := by
  exact ⟨rfl, by decide, by decide, by decide⟩

/-- C3 amended: every action path is resolved by joining it against the
workspace root (with `..` segments resolved during normalization), but
the reference implementation performs no root-containment validation:
`createFile` always succeeds and writes at the resolved path, even when
that path lies outside the root. -/
theorem c3_amended_no_containment_check (root : FPath) (p c : String) (fs : FSState) :
    (createFile root p c fs).1 =
      Except.ok (ExecResult.msg ("File " ++ p ++ " created successfully")) ∧
    readFileF (createFile root p c fs).2 (joinPath root p) = some c := by
  constructor
  · rfl
  · simp only [createFile]
    exact readFileF_writeFileF_self _ _ _

/-- C5: `editFile` on a path holding a file overwrites that file's full
content, and on a path where nothing exists it throws the not-found
error and leaves the filesystem unchanged (no file is created). -/
theorem c5_edit_file_requires_existence (root : FPath) (p c : String) (fs : FSState) :
    ((∃ old, readFileF fs (joinPath root p) = some old) →
      editFile root p c fs = (.ok (.flag true), writeFileF fs (joinPath root p) c) ∧
      readFileF (editFile root p c fs).2 (joinPath root p) = some c) ∧
    (existsF fs (joinPath root p) = false →
      editFile root p c fs = (.error ("File " ++ p ++ " does not exist"), fs)) := by
  constructor
  · rintro ⟨old, hold⟩
    have hex : existsF fs (joinPath root p) = true := by
      simp [existsF, hold]
    have hstep : editFile root p c fs =
        (.ok (.flag true), writeFileF fs (joinPath root p) c) := by
      simp only [editFile, hex, if_true, hold]
    exact ⟨hstep, by rw [hstep]; exact readFileF_writeFileF_self _ _ _⟩
  · intro hex
    simp only [editFile, hex, Bool.false_eq_true, if_false]

/-- Witness for C5 at a concrete filesystem: editing an existing file
overwrites it; editing a missing file throws and changes nothing. -/
theorem c5_witness :
    readFileF (editFile ["ws"] "a.txt" "new" ⟨[(["ws", "a.txt"], "old")], []⟩).2
      ["ws", "a.txt"] = some "new" ∧
    editFile ["ws"] "b.txt" "new" ⟨[(["ws", "a.txt"], "old")], []⟩ =
      (.error "File b.txt does not exist", ⟨[(["ws", "a.txt"], "old")], []⟩) := by
  constructor
  · exact ((c5_edit_file_requires_existence ["ws"] "a.txt" "new"
      ⟨[(["ws", "a.txt"], "old")], []⟩).1 ⟨"old", by decide⟩).2
  · exact ((c5_edit_file_requires_existence ["ws"] "b.txt" "new"
      ⟨[(["ws", "a.txt"], "old")], []⟩).2 (by decide)).trans rfl

/-- C6: `createFile` is self-sufficient on any filesystem state: it
creates the missing parent directory, writes the content, reading the
resolved path back returns exactly that content, and the parent
directory exists afterwards — no prior `CREATE_DIRECTORY` action is
needed. -/
theorem c6_create_file_round_trip (root : FPath) (p c : String) (fs : FSState) :
    (createFile root p c fs).1 =
      Except.ok (ExecResult.msg ("File " ++ p ++ " created successfully")) ∧
    readFileF (createFile root p c fs).2 (joinPath root p) = some c ∧
    existsF (createFile root p c fs).2 ((joinPath root p).dropLast) = true := by
  refine ⟨rfl, ?_, ?_⟩
  · simp only [createFile]
    exact readFileF_writeFileF_self _ _ _
  · simp only [createFile]
    cases hx : existsF fs ((joinPath root p).dropLast) with
    | true =>
        simp only [hx, if_true]
        by_cases hq : joinPath root p = (joinPath root p).dropLast
        · simp [existsF, ← hq, readFileF_writeFileF_self]
        · rw [existsF, readFileF_writeFileF_ne _ _ _ _ hq, isDirF_writeFileF]
          exact hx
    | false =>
        simp only [hx, Bool.false_eq_true, if_false]
        by_cases hq : joinPath root p = (joinPath root p).dropLast
        · simp [existsF, ← hq, readFileF_writeFileF_self]
        · rw [existsF, readFileF_writeFileF_ne _ _ _ _ hq, readFileF_mkdirRecF,
            isDirF_writeFileF, isDirF_mkdirRecF_self]
          simp

/-- C4 counterexample: for a successful `EDIT_FILE` execution the
`editFile` method resolves with the boolean `true`, which is not a
message string, and the router `executeCodeAction` resolves `void`: its
only observable outcome is a UI information message (with the router's
own fabricated text) plus the new filesystem state — so the claimed
`execute(action, root) -> Promise<string>` contract does not hold for
every action variant. -/
theorem c4_counterexample :
    (editFile ["ws"] "a.txt" "new" ⟨[(["ws", "a.txt"], "old")], []⟩).1 =
      Except.ok (ExecResult.flag true) ∧
    (∀ s : String, ExecResult.flag true ≠ ExecResult.msg s) ∧
    executeCodeAction ⟨ActionType.EDIT_FILE, "a.txt", some "new", "edit", none, none⟩
        ["ws"] ⟨[(["ws", "a.txt"], "old")], []⟩ =
      (UIMessage.info "File a.txt updated successfully",
       ⟨[(["ws", "a.txt"], "new"), (["ws", "a.txt"], "old")], []⟩) := by
  refine ⟨rfl, ?_, by decide⟩
  intro s h
  cases h

/-- C4 amended: the action router `executeCodeAction` resolves `void`
and surfaces every outcome only as a UI message. On success, the shown
information message is the invoked method's resolved success-message
string for every variant except `EDIT_FILE` (for `MOVE_FILE`/`COPY_FILE`
under the router's truthy-path guards); `editFile` instead resolves the
boolean `true`, which the router discards, showing its own
`File ... updated successfully` message. A thrown not-found error is
caught and shown as a `Failed to execute action` error message with the
filesystem unchanged, so the router never rejects. -/
theorem c4_amended_dispatch_outcomes (a : CodeAction) (root : FPath) (fs : FSState) :
    (a.type = ActionType.CREATE_FILE →
      executeCodeAction a root fs =
        (.info ("File " ++ a.path ++ " created successfully"),
         (createFile root a.path (a.content.getD "") fs).2)) ∧
    (a.type = ActionType.CREATE_DIRECTORY →
      executeCodeAction a root fs =
        (.info (if existsF fs (joinPath root a.path) = true then
                  "Directory " ++ a.path ++ " already exists"
                else "Directory " ++ a.path ++ " created successfully"),
         (createDirectory root a.path fs).2)) ∧
    (a.type = ActionType.DELETE_FILE → existsF fs (joinPath root a.path) = true →
      executeCodeAction a root fs =
        (.info ("File " ++ a.path ++ " deleted successfully"),
         unlinkF fs (joinPath root a.path))) ∧
    (a.type = ActionType.DELETE_DIRECTORY → existsF fs (joinPath root a.path) = true →
      executeCodeAction a root fs =
        (.info ("Directory " ++ a.path ++ " deleted successfully"),
         rmRecF fs (joinPath root a.path))) ∧
    (a.type = ActionType.MOVE_FILE →
      jsTruthy a.sourcePath = true → jsTruthy a.destinationPath = true →
      existsF fs (joinPath root (a.sourcePath.getD "")) = true →
      executeCodeAction a root fs =
        (.info ("File moved from " ++ a.sourcePath.getD "" ++ " to " ++ a.destinationPath.getD ""),
         (moveFile root (a.sourcePath.getD "") (a.destinationPath.getD "") fs).2)) ∧
    (a.type = ActionType.COPY_FILE →
      jsTruthy a.sourcePath = true → jsTruthy a.destinationPath = true →
      (∃ c0, readFileF fs (joinPath root (a.sourcePath.getD "")) = some c0) →
      executeCodeAction a root fs =
        (.info ("File copied from " ++ a.sourcePath.getD "" ++ " to " ++ a.destinationPath.getD ""),
         (copyFile root (a.sourcePath.getD "") (a.destinationPath.getD "") fs).2)) ∧
    (a.type = ActionType.EDIT_FILE →
      (∃ c0, readFileF fs (joinPath root a.path) = some c0) →
      (editFile root a.path (a.content.getD "") fs).1 = Except.ok (ExecResult.flag true) ∧
      executeCodeAction a root fs =
        (.info ("File " ++ a.path ++ " updated successfully"),
         (editFile root a.path (a.content.getD "") fs).2)) ∧
    (a.type = ActionType.DELETE_FILE → existsF fs (joinPath root a.path) = false →
      executeCodeAction a root fs =
        (.error ("Failed to execute action: Error: " ++
           ("File " ++ a.path ++ " does not exist")), fs)) := by
  refine ⟨fun ht => ?_, fun ht => ?_, fun ht h => ?_, fun ht h => ?_,
    fun ht h1 h2 h3 => ?_, fun ht h1 h2 h3 => ?_, fun ht h => ?_, fun ht h => ?_⟩
  · simp [executeCodeAction, ht, createFile, showText]
  · cases hx : existsF fs (joinPath root a.path) with
    | true => simp [executeCodeAction, ht, createDirectory, hx, showText]
    | false => simp [executeCodeAction, ht, createDirectory, hx, showText]
  · simp [executeCodeAction, ht, deleteFile, h, showText]
  · simp [executeCodeAction, ht, deleteDirectory, h, showText]
  · simp [executeCodeAction, ht, h1, h2, moveFile, h3, showText]
  · obtain ⟨c0, hc⟩ := h3
    have hex : existsF fs (joinPath root (a.sourcePath.getD "")) = true := by
      simp [existsF, hc]
    cases hdd : existsF fs ((joinPath root (a.destinationPath.getD "")).dropLast) with
    | true =>
        simp [executeCodeAction, ht, h1, h2, copyFile, hex, hdd, hc, showText]
    | false =>
        simp [executeCodeAction, ht, h1, h2, copyFile, hex, hdd,
          readFileF_mkdirRecF, hc, showText]
  · obtain ⟨c0, hc⟩ := h
    have hex : existsF fs (joinPath root a.path) = true := by
      simp [existsF, hc]
    constructor
    · simp [editFile, hex, hc]
    · simp [executeCodeAction, ht, editFile, hex, hc]
  · simp [executeCodeAction, ht, deleteFile, h]

/-- Witness for C4's amended statement: a successful `EDIT_FILE` run
surfaces only the router's fabricated information message, and a
`DELETE_FILE` run on a missing path surfaces a caught error message with
the filesystem unchanged. -/
theorem c4_amended_witness :
    executeCodeAction ⟨ActionType.EDIT_FILE, "b.txt", some "new", "edit", none, none⟩
        ["ws"] ⟨[(["ws", "b.txt"], "old")], []⟩ =
      (UIMessage.info "File b.txt updated successfully",
       ⟨[(["ws", "b.txt"], "new"), (["ws", "b.txt"], "old")], []⟩) ∧
    executeCodeAction ⟨ActionType.DELETE_FILE, "gone.txt", none, "d", none, none⟩
        ["ws"] ⟨[(["ws", "b.txt"], "old")], []⟩ =
      (UIMessage.error "Failed to execute action: Error: File gone.txt does not exist",
       ⟨[(["ws", "b.txt"], "old")], []⟩) := by
  constructor
  · exact (((c4_amended_dispatch_outcomes
      ⟨ActionType.EDIT_FILE, "b.txt", some "new", "edit", none, none⟩
      ["ws"] ⟨[(["ws", "b.txt"], "old")], []⟩).2.2.2.2.2.2.1 rfl
      ⟨"old", by decide⟩).2).trans (by decide)
  · exact ((c4_amended_dispatch_outcomes
      ⟨ActionType.DELETE_FILE, "gone.txt", none, "d", none, none⟩
      ["ws"] ⟨[(["ws", "b.txt"], "old")], []⟩).2.2.2.2.2.2.2 rfl
      (by decide)).trans (by decide)

/-- C8: `createDirectory` is idempotent: when the directory already
exists it returns a no-op success message without error and leaves the
filesystem unchanged; it always succeeds; and a second call on the same
path returns the no-op success and again changes nothing. -/
theorem c8_create_directory_idempotent (root : FPath) (d : String) (fs : FSState) :
    (existsF fs (joinPath root d) = true →
      createDirectory root d fs =
        (.ok (.msg ("Directory " ++ d ++ " already exists")), fs)) ∧
    (∃ m, (createDirectory root d fs).1 = Except.ok (ExecResult.msg m)) ∧
    createDirectory root d (createDirectory root d fs).2 =
      (.ok (.msg ("Directory " ++ d ++ " already exists")), (createDirectory root d fs).2) := by
  cases hx : existsF fs (joinPath root d) with
  | true =>
      have hfirst : createDirectory root d fs =
          (.ok (.msg ("Directory " ++ d ++ " already exists")), fs) := by
        simp only [createDirectory, hx, if_true]
      refine ⟨fun _ => hfirst, ⟨"Directory " ++ d ++ " already exists", ?_⟩, ?_⟩
      · rw [hfirst]
      · rw [hfirst]
        simp only [createDirectory, hx, if_true]
  | false =>
      have hfirst : createDirectory root d fs =
          (.ok (.msg ("Directory " ++ d ++ " created successfully")),
           mkdirRecF fs (joinPath root d)) := by
        simp only [createDirectory, hx, Bool.false_eq_true, if_false]
      refine ⟨(fun hc => nomatch hc),
        ⟨"Directory " ++ d ++ " created successfully", ?_⟩, ?_⟩
      · rw [hfirst]
      · rw [hfirst]
        simp only [createDirectory, existsF_mkdirRecF_self, if_true]

/-- Witness for C8 on an empty filesystem: the second of two identical
`createDirectory` calls is a no-op success. -/
theorem c8_witness :
    createDirectory ["ws"] "d" (createDirectory ["ws"] "d" ⟨[], []⟩).2 =
      (.ok (.msg "Directory d already exists"), (createDirectory ["ws"] "d" ⟨[], []⟩).2) ∧
    createDirectory ["ws"] "d" ⟨[], [["ws", "d"]]⟩ =
      (.ok (.msg "Directory d already exists"), ⟨[], [["ws", "d"]]⟩) :=
  ⟨(c8_create_directory_idempotent ["ws"] "d" ⟨[], []⟩).2.2,
   ((c8_create_directory_idempotent ["ws"] "d" ⟨[], [["ws", "d"]]⟩).1 (by decide)).trans rfl⟩

/-- C10: for each operation with an existence precondition (`deleteFile`,
`deleteDirectory`, `moveFile`, `copyFile`, `editFile`), when the required
source path does not exist the operation throws its not-found error and
the filesystem is returned unchanged: the existence check precedes every
mutation. -/
theorem c10_no_mutation_on_not_found (root : FPath) (fs : FSState) (p dp s d c : String) :
    (existsF fs (joinPath root p) = false →
      deleteFile root p fs = (.error ("File " ++ p ++ " does not exist"), fs)) ∧
    (existsF fs (joinPath root dp) = false →
      deleteDirectory root dp fs = (.error ("Directory " ++ dp ++ " does not exist"), fs)) ∧
    (existsF fs (joinPath root s) = false →
      moveFile root s d fs = (.error ("Source file " ++ s ++ " does not exist"), fs)) ∧
    (existsF fs (joinPath root s) = false →
      copyFile root s d fs = (.error ("Source file " ++ s ++ " does not exist"), fs)) ∧
    (existsF fs (joinPath root p) = false →
      editFile root p c fs = (.error ("File " ++ p ++ " does not exist"), fs)) := by
  refine ⟨fun h => ?_, fun h => ?_, fun h => ?_, fun h => ?_, fun h => ?_⟩
  · simp only [deleteFile, h, Bool.false_eq_true, if_false]
  · simp only [deleteDirectory, h, Bool.false_eq_true, if_false]
  · simp only [moveFile, h, Bool.not_false, if_true]
  · simp only [copyFile, h, Bool.not_false, if_true]
  · simp only [editFile, h, Bool.false_eq_true, if_false]

/-- Witness for C10 on a one-file filesystem: each of the five
operations applied to a missing path throws and changes nothing. -/
theorem c10_witness :
    deleteFile ["ws"] "gone.txt" ⟨[(["ws", "a.txt"], "old")], []⟩ =
      (.error "File gone.txt does not exist", ⟨[(["ws", "a.txt"], "old")], []⟩) ∧
    moveFile ["ws"] "gone.txt" "dest.txt" ⟨[(["ws", "a.txt"], "old")], []⟩ =
      (.error "Source file gone.txt does not exist", ⟨[(["ws", "a.txt"], "old")], []⟩) := by
  constructor
  · exact ((c10_no_mutation_on_not_found ["ws"] ⟨[(["ws", "a.txt"], "old")], []⟩
      "gone.txt" "d" "gone.txt" "dest.txt" "c").1 (by decide)).trans rfl
  · exact ((c10_no_mutation_on_not_found ["ws"] ⟨[(["ws", "a.txt"], "old")], []⟩
      "gone.txt" "d" "gone.txt" "dest.txt" "c").2.2.1 (by decide)).trans rfl
